import Mathlib

/-!
Verification of the institutional-accumulation tracker's scoring core.

The repository has two near-identical scripts:
* `tracker.py` — dual-window variant: `analyze_dual_scores` computes the
  derived columns TP / VWAP / OBV over the fetched series, scores the whole
  series (mid window) and the trailing slice starting at `int(len(df)*0.8)`
  (short window) with the inner function `calculate_score`.
* `trackersimple.py` — single-window variant: `get_analysis_data` computes the
  same columns and scores the whole series inline, then classifies the score
  with an `if/elif` chain at thresholds 8.0 / 3.0 / 1.0.

Embedding conventions:
* A bar series is a `List Bar` with exact rational (`ℚ`) fields; pandas
  float arithmetic is idealised as exact arithmetic.
* pandas/numpy division never raises; dividing by zero yields a non-finite
  float (`±Inf` or `NaN`), and every subsequent `+ * -` on a non-finite
  operand stays non-finite.  We model a float that may be non-finite as
  `Option ℚ`, with `none` standing for any non-finite value; `fdiv` is the
  float division and `Option.bind` propagates non-finiteness.
* The error channel of the two top-level functions (the `df.empty` check and
  the `try/except`) is a separate outer `Option`: `none` there models the
  function returning an explicit error message instead of a result.
-/

/-- One OHLCV bar of the fetched series (the columns the scoring core reads). -/
structure Bar where
  high : ℚ
  low : ℚ
  close : ℚ
  volume : ℚ
  deriving DecidableEq, Repr

instance : Inhabited Bar := ⟨⟨0, 0, 0, 0⟩⟩

/-- Float division as pandas/numpy perform it: a zero denominator yields a
non-finite value (`Inf` or `NaN`), modelled as `none`; otherwise the exact
quotient. -/
def fdiv (a b : ℚ) : Option ℚ :=
  if b = 0 then none else some (a / b)

/-- Close price `df['Close']` at index `i` (0 when out of range; the code
never reads out of range). -/
def closeAt (bars : List Bar) (i : ℕ) : ℚ :=
  (bars.getD i default).close

/-- Volume `df['Volume']` at index `i`. -/
def volAt (bars : List Bar) (i : ℕ) : ℚ :=
  (bars.getD i default).volume

/-- Typical price `df['TP'] = (df['High'] + df['Low'] + df['Close']) / 3`
at index `i`. -/
def tpAt (bars : List Bar) (i : ℕ) : ℚ :=
  ((bars.getD i default).high + (bars.getD i default).low
    + (bars.getD i default).close) / 3

/-- The boolean series `~df['Close'].diff().le(0)` at index `i`.  At index 0
the diff is `NaN`, `NaN <= 0` is `False`, so its negation is `True`; at
`i ≥ 1` it is `Close[i] - Close[i-1] > 0`, i.e. `Close[i-1] < Close[i]`. -/
def notDiffLeZero (closes : List ℚ) (i : ℕ) : Bool :=
  match i with
  | 0 => true
  | j + 1 => decide (closes.getD j 0 < closes.getD (j + 1) 0)

/-- The per-bar direction series `(~df['Close'].diff().le(0)) * 2 - 1`
(`True ↦ +1`, `False ↦ -1`). -/
def direction (closes : List ℚ) (i : ℕ) : ℤ :=
  2 * (if notDiffLeZero closes i then 1 else 0) - 1

/-- Running OBV `df['OBV'] = (df['Volume'] * direction).cumsum()` at
index `i`. -/
def OBV (bars : List Bar) (i : ℕ) : ℚ :=
  ∑ j in Finset.range (i + 1),
    ((direction (bars.map Bar.close) j : ℤ) : ℚ) * volAt bars j

/-- Cumulative price-volume `(df['TP'] * df['Volume']).cumsum()` at
index `i`. -/
def cumPV (bars : List Bar) (i : ℕ) : ℚ :=
  ∑ j in Finset.range (i + 1), tpAt bars j * volAt bars j

/-- Cumulative volume `df['Volume'].cumsum()` at index `i`. -/
def cumV (bars : List Bar) (i : ℕ) : ℚ :=
  ∑ j in Finset.range (i + 1), volAt bars j

/-- Running VWAP `df['VWAP']` at index `i`, with float semantics: `none` when the
cumulative volume is zero (pandas produces `NaN`/`Inf` there). -/
def VWAP (bars : List Bar) (i : ℕ) : Option ℚ :=
  fdiv (cumPV bars i) (cumV bars i)

/-- The exact rational value of `VWAP[i]` (meaningful when `cumV ≠ 0`). -/
def vwapQ (bars : List Bar) (i : ℕ) : ℚ :=
  cumPV bars i / cumV bars i

/-- Arithmetic mean of a list, `xs.sum / len(xs)` (junk value 0 on `[]`;
the float model routes the empty case through `fdiv` instead). -/
def listMean (xs : List ℚ) : ℚ :=
  xs.sum / (xs.length : ℚ)

/-- Function `calculate_score(data_slice)` from `tracker.py` (lines 57–62), where
`data_slice = df.iloc[s:e]` carries the derived columns of the full series
`bars`.  `none` means the returned float is non-finite (never an exception:
numpy division by zero only warns). -/
def calculate_score (bars : List Bar) (s e : ℕ) : Option ℚ := do
  let sliceVols := ((bars.take e).drop s).map Bar.volume
  let meanVol ← fdiv sliceVols.sum (sliceVols.length : ℚ)
  let obvGrowth ← fdiv (OBV bars (e - 1) - OBV bars s) meanVol
  let vwapLast ← VWAP bars (e - 1)
  let ratio ← fdiv (closeAt bars (e - 1)) vwapLast
  return obvGrowth * (1 + (ratio - 1) * 100)

/-- The short-window start index `int(len(df) * 0.8)` used by
`analyze_dual_scores` (truncation of a non-negative float = floor). -/
def shortSliceIdx (n : ℕ) : ℕ :=
  (⌊(n : ℚ) * (4 / 5)⌋).toNat

/-- Function `analyze_dual_scores` from `tracker.py` (lines 42–75), with the fetch
abstracted into the input series: `none` is the explicit error return for an
empty series; otherwise the `(short, mid)` score pair is returned (each score
may itself be a non-finite float, i.e. `none`). -/
def analyze_dual_scores (bars : List Bar) : Option (Option ℚ × Option ℚ) :=
  if bars.length = 0 then none
  else
    some (calculate_score bars (shortSliceIdx bars.length) bars.length,
          calculate_score bars 0 bars.length)

/-- The inline accumulation-score computation of `get_analysis_data` from
`trackersimple.py` (lines 63–73), over the whole series. -/
def acc_score (bars : List Bar) : Option ℚ := do
  let vols := bars.map Bar.volume
  let meanVol ← fdiv vols.sum (vols.length : ℚ)
  let obvEff ← fdiv (OBV bars (bars.length - 1) - OBV bars 0) meanVol
  let vwapLast ← VWAP bars (bars.length - 1)
  let ratio ← fdiv (closeAt bars (bars.length - 1)) vwapLast
  return obvEff * (1 + (ratio - 1) * 100)

/-- Function `get_analysis_data` from `trackersimple.py`: explicit error (`none`) only
for an empty series, otherwise the (possibly non-finite) score. -/
def get_analysis_data (bars : List Bar) : Option (Option ℚ) :=
  if bars.length = 0 then none else some (acc_score bars)

/-- The four labels of the single-window classifier in `trackersimple.py`. -/
inductive Label where
  | overheated
  | strong
  | healthy
  | caution
  deriving DecidableEq, Repr

/-- The single-window classifier (`trackersimple.py` lines 97–104):
`score >= 8.0` overheated, `elif score >= 3.0` strong, `elif score >= 1.0`
healthy, `else` caution. -/
def classify_score (s : ℚ) : Label :=
  if 8 ≤ s then Label.overheated
  else if 3 ≤ s then Label.strong
  else if 1 ≤ s then Label.healthy
  else Label.caution

/-- Minimum typical price over the prefix `0..i`. -/
def minTP (bars : List Bar) (i : ℕ) : ℚ :=
  Finset.inf' (Finset.range (i + 1)) Finset.nonempty_range_succ (tpAt bars)

/-- Maximum typical price over the prefix `0..i`. -/
def maxTP (bars : List Bar) (i : ℕ) : ℚ :=
  Finset.sup' (Finset.range (i + 1)) Finset.nonempty_range_succ (tpAt bars)

/-- The spec's worked 5-bar scenario: Close = [10,11,10,12,13], all volumes
100 (High/Low set to Close; only Close and Volume enter OBV and the score's
volume side). -/
def fiveBars : List Bar :=
  [⟨10, 10, 10, 100⟩, ⟨11, 11, 11, 100⟩, ⟨10, 10, 10, 100⟩,
   ⟨12, 12, 12, 100⟩, ⟨13, 13, 13, 100⟩]

/-- A 2-bar series (shorter than 5 bars) with nonzero volumes. -/
def twoBars : List Bar :=
  [⟨1, 1, 1, 1⟩, ⟨2, 2, 2, 1⟩]

/-- A 2-bar series whose close is unchanged from bar 0 to bar 1. -/
def tieBars : List Bar :=
  [⟨1, 1, 1, 5⟩, ⟨1, 1, 1, 7⟩]

/-- A 1-bar series with constant typical price 3 and volume 1. -/
def flatBar : List Bar :=
  [⟨3, 3, 3, 1⟩]

/-- A 2-bar series in which every volume is zero. -/
def zeroVolBars : List Bar :=
  [⟨10, 10, 10, 0⟩, ⟨11, 11, 11, 0⟩]

/-- C3: for every bar series, the direction column is +1 at index 0 (the first
bar's volume is always added) and, at every later index, +1 exactly when the
close strictly increased and -1 otherwise (ties count as -1); OBV satisfies
`OBV[0] = Volume[0]` and `OBV[i] = OBV[i-1] + Direction[i] * Volume[i]`. -/
theorem obv_direction_recurrence (bars : List Bar) (i : ℕ) :
    direction (bars.map Bar.close) 0 = 1 ∧
    direction (bars.map Bar.close) (i + 1) =
      (if (bars.map Bar.close).getD i 0 < (bars.map Bar.close).getD (i + 1) 0
        then 1 else -1) ∧
    OBV bars 0 = volAt bars 0 ∧
    OBV bars (i + 1) =
      OBV bars i
        + ((direction (bars.map Bar.close) (i + 1) : ℤ) : ℚ) * volAt bars (i + 1) := by
  refine ⟨by norm_num [direction, notDiffLeZero], ?_, ?_, ?_⟩
  · by_cases h : (bars.map Bar.close).getD i 0 < (bars.map Bar.close).getD (i + 1) 0
    · have hb : notDiffLeZero (bars.map Bar.close) (i + 1) = true := decide_eq_true h
      simp only [direction]
      rw [hb, if_pos h]
      norm_num
    · have hb : notDiffLeZero (bars.map Bar.close) (i + 1) = false := decide_eq_false h
      simp only [direction]
      rw [hb, if_neg h]
      norm_num
  · norm_num [OBV, Finset.sum_range_one, direction, notDiffLeZero]
  · simp [OBV, Finset.sum_range_succ]

/-- C4 counterexample: on a series whose close is unchanged from bar 0 to
bar 1, the code assigns direction -1 (not +1) and SUBTRACTS the second bar's
volume: OBV = 5 - 7 = -2, not 5 + 7. -/
theorem tie_direction_counterexample :
    direction (tieBars.map Bar.close) 1 = -1 ∧
    direction (tieBars.map Bar.close) 1 ≠ 1 ∧
    OBV tieBars 1 = -2 := by
  refine ⟨by norm_num [direction, notDiffLeZero, tieBars], by norm_num [direction, notDiffLeZero, tieBars], ?_⟩
  norm_num [OBV, Finset.sum_range_succ, Finset.sum_range_one, direction,
    notDiffLeZero, volAt, tieBars]

/-- C4 amended: for every bar whose close equals the prior close, the OBV
computation assigns direction -1 — it folds "price unchanged" into "price
down" and subtracts that bar's volume from OBV. -/
theorem tie_direction_subtracts (bars : List Bar) (i : ℕ)
    (h : (bars.map Bar.close).getD i 0 = (bars.map Bar.close).getD (i + 1) 0) :
    direction (bars.map Bar.close) (i + 1) = -1 ∧
    OBV bars (i + 1) = OBV bars i - volAt bars (i + 1) := by
  have hd : direction (bars.map Bar.close) (i + 1) = -1 := by
    have hb : notDiffLeZero (bars.map Bar.close) (i + 1) = false :=
      decide_eq_false (by rw [h]; exact lt_irrefl _)
    simp only [direction]
    rw [hb]
    norm_num
  refine ⟨hd, ?_⟩
  have hrec : OBV bars (i + 1) =
      OBV bars i + ((direction (bars.map Bar.close) (i + 1) : ℤ) : ℚ) * volAt bars (i + 1) := by
    simp [OBV, Finset.sum_range_succ]
  rw [hrec, hd]
  push_cast
  ring

/-- Witness for the amended C4 theorem at the concrete tie series. -/
theorem tie_direction_subtracts_witness :
    (tieBars.map Bar.close).getD 0 0 = (tieBars.map Bar.close).getD 1 0 ∧
    (direction (tieBars.map Bar.close) 1 = -1 ∧
      OBV tieBars 1 = OBV tieBars 0 - volAt tieBars 1) :=
  ⟨by norm_num [tieBars], tie_direction_subtracts tieBars 0 (by norm_num [tieBars])⟩

/-- C8: the absolute per-step change of OBV equals that bar's volume
(volumes are non-negative in a bar series). -/
theorem obv_step_abs (bars : List Bar) (i : ℕ) (hv : 0 ≤ volAt bars (i + 1)) :
    |OBV bars (i + 1) - OBV bars i| = volAt bars (i + 1) := by
  have hrec : OBV bars (i + 1) =
      OBV bars i + ((direction (bars.map Bar.close) (i + 1) : ℤ) : ℚ) * volAt bars (i + 1) := by
    simp [OBV, Finset.sum_range_succ]
  rw [hrec, add_sub_cancel_left]
  by_cases hb : notDiffLeZero (bars.map Bar.close) (i + 1)
  · simp [direction, hb, abs_of_nonneg hv]
  · simp [direction, hb, abs_of_nonneg hv]

/-- Witness for C8 at the spec's 5-bar series, step 0 → 1. -/
theorem obv_step_abs_witness :
    0 ≤ volAt fiveBars 1 ∧ |OBV fiveBars 1 - OBV fiveBars 0| = volAt fiveBars 1 :=
  ⟨by norm_num [volAt, fiveBars], obv_step_abs fiveBars 0 (by norm_num [volAt, fiveBars])⟩

/-- C6: the single-window classifier realises exactly the four bands
`s ≥ 8` overheated, `3 ≤ s < 8` strong, `1 ≤ s < 3` healthy, `s < 1` caution;
being a total function into the four labels with these characterisations, it
maps every score to exactly one label and the bands partition ℚ. -/
theorem classifier_bands (s : ℚ) :
    (classify_score s = Label.overheated ↔ 8 ≤ s) ∧
    (classify_score s = Label.strong ↔ 3 ≤ s ∧ s < 8) ∧
    (classify_score s = Label.healthy ↔ 1 ≤ s ∧ s < 3) ∧
    (classify_score s = Label.caution ↔ s < 1) := by
  by_cases h8 : 8 ≤ s
  · have hn8 : ¬s < 8 := not_lt.mpr h8
    have hn3 : ¬s < 3 := by linarith
    have hn1 : ¬s < 1 := by linarith
    simp [classify_score, h8, hn8, hn3, hn1]
  · by_cases h3 : 3 ≤ s
    · have hlt8 : s < 8 := not_le.mp h8
      have hn3 : ¬s < 3 := not_lt.mpr h3
      have hn1 : ¬s < 1 := by linarith
      simp [classify_score, h8, h3, hlt8, hn3, hn1]
    · by_cases h1 : 1 ≤ s
      · have hlt3 : s < 3 := not_le.mp h3
        have hn1 : ¬s < 1 := not_lt.mpr h1
        simp [classify_score, h8, h3, h1, hlt3, hn1]
      · have hlt1 : s < 1 := not_le.mp h1
        simp [classify_score, h8, h3, h1, hlt1]

/-- C7: the single-window variant's whole-series score (`trackersimple.py`)
equals the dual-window variant's mid-term score, i.e. `calculate_score`
applied to the entire series (`tracker.py`). -/
theorem variants_agree (bars : List Bar) :
    acc_score bars = calculate_score bars 0 bars.length := by
  simp only [acc_score, calculate_score, List.take_length, List.drop_zero]

/-- C10: for every non-empty series of `n` bars, the short-window start index
`int(n * 0.8)` is at most `n - 1`, so the trailing short-window slice is
non-empty and its first/last element accesses cannot hit an empty slice. -/
theorem short_slice_in_range (bars : List Bar) (h : 1 ≤ bars.length) :
    shortSliceIdx bars.length ≤ bars.length - 1 ∧
    bars.drop (shortSliceIdx bars.length) ≠ [] := by
  have hlt : shortSliceIdx bars.length < bars.length := by
    have hne : bars.length ≠ 0 := by omega
    rw [shortSliceIdx, Int.toNat_lt' hne]
    apply Int.floor_lt.mpr
    push_cast
    have h1 : (1 : ℚ) ≤ (bars.length : ℚ) := by exact_mod_cast h
    linarith
  refine ⟨by omega, ?_⟩
  apply List.length_pos.mp
  rw [List.length_drop]
  omega

/-- Witness for C10 at the single-bar series. -/
theorem short_slice_in_range_witness :
    1 ≤ flatBar.length ∧
    (shortSliceIdx flatBar.length ≤ flatBar.length - 1 ∧
      flatBar.drop (shortSliceIdx flatBar.length) ≠ []) :=
  ⟨by norm_num [flatBar], short_slice_in_range flatBar (by norm_num [flatBar])⟩

/-- C5 counterexample: a 2-bar series (shorter than 5 bars, short window of a
single bar) is NOT rejected — the orchestrator returns a finite score pair
(short 0, mid 103/3) instead of failing explicitly. -/
theorem undersized_series_scored :
    twoBars.length < 5 ∧
    analyze_dual_scores twoBars = some (some 0, some (103 / 3)) := by
  refine ⟨by norm_num [twoBars], ?_⟩
  norm_num [analyze_dual_scores, twoBars, shortSliceIdx, calculate_score, fdiv,
    OBV, VWAP, cumPV, cumV, Finset.sum_range_succ, Finset.sum_range_one,
    direction, notDiffLeZero, volAt, closeAt, tpAt]

/-- C5 amended: the dual-window orchestrator rejects only an empty fetched
series; for every non-empty series — including series shorter than 5 bars,
whose short window has a single bar — it computes the score pair without
failing. -/
theorem orchestrator_never_rejects_nonempty (bars : List Bar) (h : bars ≠ []) :
    analyze_dual_scores [] = none ∧ (analyze_dual_scores bars).isSome = true := by
  refine ⟨rfl, ?_⟩
  have hne : bars.length ≠ 0 := by
    simpa [List.length_eq_zero] using h
  simp [analyze_dual_scores, hne]

/-- Witness for the amended C5 theorem at the 2-bar series. -/
theorem orchestrator_never_rejects_nonempty_witness :
    twoBars ≠ [] ∧
    (analyze_dual_scores [] = none ∧ (analyze_dual_scores twoBars).isSome = true) :=
  ⟨by simp [twoBars], orchestrator_never_rejects_nonempty twoBars (by simp [twoBars])⟩

/-- C2 at the zero-volume series: both scripts COMPLETE instead of failing.
`get_analysis_data` returns a result whose score is non-finite (`some none`,
i.e. NaN/Inf handed to the caller, no error raised), and `analyze_dual_scores`
likewise returns a non-finite score pair.  Neither script contains any
zero-mean-volume check or a distinct DegenerateWindow error condition. -/
theorem zero_volume_silent_nonfinite :
    get_analysis_data zeroVolBars = some none ∧
    analyze_dual_scores zeroVolBars = some (none, none) := by
  constructor
  · norm_num [get_analysis_data, acc_score, fdiv, OBV, VWAP, cumPV, cumV,
      Finset.sum_range_succ, Finset.sum_range_one, direction, notDiffLeZero,
      volAt, closeAt, tpAt, zeroVolBars]
  · norm_num [analyze_dual_scores, shortSliceIdx, calculate_score, fdiv, OBV,
      VWAP, cumPV, cumV, Finset.sum_range_succ, Finset.sum_range_one,
      direction, notDiffLeZero, volAt, closeAt, tpAt, zeroVolBars]

/-- C1: on any window `[s, e)` of a series with derived columns, if the
window's mean volume is nonzero and the VWAP at the last bar is defined
(nonzero cumulative volume) and nonzero, the score equals
`obv_growth * (1 + vwap_efficiency * 100)` with
`obv_growth = (OBV[last] - OBV[first]) / mean(Volume over the window)` and
`vwap_efficiency = Close[last] / VWAP[last] - 1`. -/
theorem score_formula (bars : List Bar) (s e : ℕ)
    (hne : (((bars.take e).drop s).map Bar.volume).length ≠ 0)
    (hmean : listMean (((bars.take e).drop s).map Bar.volume) ≠ 0)
    (hcv : cumV bars (e - 1) ≠ 0)
    (hvw : vwapQ bars (e - 1) ≠ 0) :
    calculate_score bars s e =
      some (((OBV bars (e - 1) - OBV bars s)
              / listMean (((bars.take e).drop s).map Bar.volume))
        * (1 + (closeAt bars (e - 1) / vwapQ bars (e - 1) - 1) * 100)) := by
  have hlen : ((((bars.take e).drop s).map Bar.volume).length : ℚ) ≠ 0 :=
    Nat.cast_ne_zero.mpr hne
  simp only [listMean] at hmean
  simp only [vwapQ] at hvw
  simp at hlen hmean
  simp [calculate_score, VWAP, fdiv, hlen, hmean, hcv, hvw, listMean, vwapQ]

/-- Witness for C1 at the spec's 5-bar scenario, scored over the whole
series (the score evaluates to 239/7). -/
theorem score_formula_witness :
    ((((fiveBars.take 5).drop 0).map Bar.volume).length ≠ 0 ∧
      listMean (((fiveBars.take 5).drop 0).map Bar.volume) ≠ 0 ∧
      cumV fiveBars (5 - 1) ≠ 0 ∧ vwapQ fiveBars (5 - 1) ≠ 0) ∧
    calculate_score fiveBars 0 5 =
      some (((OBV fiveBars (5 - 1) - OBV fiveBars 0)
              / listMean (((fiveBars.take 5).drop 0).map Bar.volume))
        * (1 + (closeAt fiveBars (5 - 1) / vwapQ fiveBars (5 - 1) - 1) * 100)) :=
  ⟨⟨by norm_num [fiveBars],
    by norm_num [listMean, fiveBars],
    by norm_num [cumV, volAt, fiveBars, Finset.sum_range_succ, Finset.sum_range_one],
    by norm_num [vwapQ, cumPV, cumV, tpAt, volAt, fiveBars,
      Finset.sum_range_succ, Finset.sum_range_one]⟩,
   score_formula fiveBars 0 5
    (by norm_num [fiveBars])
    (by norm_num [listMean, fiveBars])
    (by norm_num [cumV, volAt, fiveBars, Finset.sum_range_succ, Finset.sum_range_one])
    (by norm_num [vwapQ, cumPV, cumV, tpAt, volAt, fiveBars,
      Finset.sum_range_succ, Finset.sum_range_one])⟩

lemma minTP_zero (bars : List Bar) : minTP bars 0 = tpAt bars 0 := by
  apply le_antisymm
  · exact Finset.inf'_le _ (Finset.mem_range.mpr Nat.zero_lt_one)
  · apply Finset.le_inf'
    intro j hj
    have hj0 : j = 0 := by
      have := Finset.mem_range.mp hj
      omega
    rw [hj0]

lemma maxTP_zero (bars : List Bar) : maxTP bars 0 = tpAt bars 0 := by
  apply le_antisymm
  · apply Finset.sup'_le
    intro j hj
    have hj0 : j = 0 := by
      have := Finset.mem_range.mp hj
      omega
    rw [hj0]
  · exact Finset.le_sup' _ (Finset.mem_range.mpr Nat.zero_lt_one)

/-- C9 counterexample: on the 1-bar series with constant typical price 3,
`VWAP[0]` is defined and equals 3, but the minimum and maximum typical price
of the prefix are also 3, so VWAP is NOT strictly between them. -/
theorem vwap_strict_counterexample :
    VWAP flatBar 0 = some 3 ∧ minTP flatBar 0 = 3 ∧ maxTP flatBar 0 = 3 ∧
    ¬(minTP flatBar 0 < 3 ∧ 3 < maxTP flatBar 0) := by
  have hmin : minTP flatBar 0 = 3 := by
    rw [minTP_zero]
    norm_num [tpAt, flatBar]
  have hmax : maxTP flatBar 0 = 3 := by
    rw [maxTP_zero]
    norm_num [tpAt, flatBar]
  refine ⟨?_, hmin, hmax, ?_⟩
  · norm_num [VWAP, fdiv, cumPV, cumV, Finset.sum_range_one, tpAt, volAt, flatBar]
  · rw [hmin]
    simp

/-- C9 amended: for a series with non-negative volumes and positive
cumulative volume up to `i`, `VWAP[i]` is defined, is the volume-weighted
average of the typical prices of the prefix (`vwap * Σvol = Σ(tp·vol)`), and
lies WEAKLY between the minimum and maximum typical price of that prefix
(equality occurs, e.g. when all typical prices coincide). -/
theorem vwap_weighted_average_bounds (bars : List Bar) (i : ℕ)
    (hv : ∀ j, j ≤ i → 0 ≤ volAt bars j) (hpos : 0 < cumV bars i) :
    VWAP bars i = some (vwapQ bars i) ∧
    vwapQ bars i * cumV bars i = cumPV bars i ∧
    minTP bars i ≤ vwapQ bars i ∧ vwapQ bars i ≤ maxTP bars i := by
  have hne : cumV bars i ≠ 0 := ne_of_gt hpos
  refine ⟨by simp [VWAP, fdiv, hne, vwapQ], div_mul_cancel₀ _ hne, ?_, ?_⟩
  · rw [vwapQ, le_div_iff₀ hpos]
    calc minTP bars i * cumV bars i
        = ∑ j in Finset.range (i + 1), minTP bars i * volAt bars j := by
          rw [cumV, Finset.mul_sum]
      _ ≤ ∑ j in Finset.range (i + 1), tpAt bars j * volAt bars j := by
          apply Finset.sum_le_sum
          intro j hj
          apply mul_le_mul_of_nonneg_right
          · exact Finset.inf'_le _ hj
          · exact hv j (Nat.lt_succ_iff.mp (Finset.mem_range.mp hj))
      _ = cumPV bars i := rfl
  · rw [vwapQ, div_le_iff₀ hpos]
    calc cumPV bars i
        = ∑ j in Finset.range (i + 1), tpAt bars j * volAt bars j := rfl
      _ ≤ ∑ j in Finset.range (i + 1), maxTP bars i * volAt bars j := by
          apply Finset.sum_le_sum
          intro j hj
          apply mul_le_mul_of_nonneg_right
          · exact Finset.le_sup' _ hj
          · exact hv j (Nat.lt_succ_iff.mp (Finset.mem_range.mp hj))
      _ = maxTP bars i * cumV bars i := by
          rw [cumV, Finset.mul_sum]

/-- Witness for the amended C9 theorem at the 2-bar series
(typical prices 1 and 2, VWAP 3/2). -/
theorem vwap_weighted_average_bounds_witness :
    ((∀ j, j ≤ 1 → 0 ≤ volAt twoBars j) ∧ 0 < cumV twoBars 1) ∧
    (VWAP twoBars 1 = some (vwapQ twoBars 1) ∧
      vwapQ twoBars 1 * cumV twoBars 1 = cumPV twoBars 1 ∧
      minTP twoBars 1 ≤ vwapQ twoBars 1 ∧ vwapQ twoBars 1 ≤ maxTP twoBars 1) :=
  ⟨⟨fun j hj => by interval_cases j <;> norm_num [volAt, twoBars],
    by norm_num [cumV, volAt, twoBars, Finset.sum_range_succ, Finset.sum_range_one]⟩,
   vwap_weighted_average_bounds twoBars 1
    (fun j hj => by interval_cases j <;> norm_num [volAt, twoBars])
    (by norm_num [cumV, volAt, twoBars, Finset.sum_range_succ, Finset.sum_range_one])⟩
